import Mathlib

/-!
Shallow embedding of the row-mutation translation layer in `src/syncer/dml.go`
(package `syncer` of the dm repository).

Conventions of the embedding:
* Go `interface{}` values captured from the binlog are modelled by the closed
  variant `Value` below.  Machine integers are carried as Lean `Int`/`Nat`
  with explicit `% 2^w` reductions where the Go code converts between widths.
  Floating point values are carried together with their already-rendered
  decimal text (`strconv.FormatFloat` output), since floating point is not
  shallowly embeddable; no claim depends on float arithmetic.
* A Go `map[string][]*column` is modelled as an association list
  `List (String × List column)` recording one concrete iteration order of the
  map.  Go map iteration order is unspecified; functions that range over the
  map are therefore functions of the iteration sequence, and map-order
  (in)dependence is expressed through permutations of that list.
* Go `nil` slices are modelled as `[]`; callers in the source only ever test
  `len(...) == 0`, which cannot distinguish `nil` from an empty slice.
* Out-of-range slice indexing panics in Go.  The total functions below read a
  row position with `List.getD _ _ Value.null`; the `Option`-valued variants
  (suffix `?`) make the out-of-range branch explicit, and the bounds theorems
  show the two agree whenever every referenced ordinal is in range.
* Fallible batch generators return `Except String`; the Go originals return
  `(nil, nil, nil, err)` on failure, so the error case carries no outputs by
  construction in both.
-/

/-- Lowercasing used to model `strings.ToLower` (mapped over the characters).
Defined over the character list so that it reduces in the kernel. -/
def strToLower (s : String) : String := String.mk (s.data.map Char.toLower)

/-- Helper for substring containment over character lists. -/
def containsAux (pat : List Char) : List Char → Bool
  | [] => pat.isEmpty
  | a :: rest => pat.isPrefixOf (a :: rest) || containsAux pat rest

/-- Model of Go `strings.Contains s sub`. -/
def strContains (s sub : String) : Bool := containsAux sub.data s.data

/-- Closed variant of the Go `interface{}` values flowing through dml.go.
The numeric constructors mirror the dynamic types switched on by
`castUnsigned` and `columnValue`.  `float32` and `float64` carry their
`strconv.FormatFloat` rendering; `other` carries the generic `%v` rendering
used by the default branch of `columnValue`. -/
inductive Value where
  | null
  | bool (b : Bool)
  | int (v : Int)
  | int8 (v : Int)
  | int16 (v : Int)
  | int32 (v : Int)
  | int64 (v : Int)
  | uint (v : Nat)
  | uint8 (v : Nat)
  | uint16 (v : Nat)
  | uint32 (v : Nat)
  | uint64 (v : Nat)
  | float32 (rendered : String)
  | float64 (rendered : String)
  | str (s : String)
  | bytes (s : String)
  | other (rendered : String)
  deriving DecidableEq, Repr

/-- Column descriptor, mirroring the Go `column` struct used by dml.go:
ordinal position `idx`, `name`, schema not-null flag `NotNull`, `unsigned`
flag and declared type text `tp`. -/
structure column where
  idx : Nat
  name : String
  NotNull : Bool
  unsigned : Bool
  tp : String
  deriving DecidableEq, Repr

/-- Go `map[string][]*column` (index name to its ordered column list), as the
association list giving one concrete iteration order of the map. -/
abbrev IndexCatalog : Type := List (String × List column)

/-- Association lookup modelling the Go map read `indexColumns["primary"]`
(first binding of the key in the iteration sequence). -/
def lookupIndex (indexColumns : IndexCatalog) (name : String) : Option (List column) :=
  match indexColumns with
  | [] => none
  | (k, cols) :: rest => if k = name then some cols else lookupIndex rest name

/-- Embedding of `castUnsigned(data, unsigned, tp)` from dml.go lines
200-227.  Signed-to-unsigned conversion is the two-complement
reinterpretation `v % 2^w`; the `mediumint` branch writes `uint32(v)` into
four little-endian bytes and keeps the low three, i.e. reduces the 32-bit
pattern modulo `2^24`.  The `int64` branch returns the decimal text of the
unsigned 64-bit interpretation (`strconv.FormatUint(uint64(v), 10)`). -/
def castUnsigned (data : Value) (unsigned : Bool) (tp : String) : Value :=
  if !unsigned then data
  else
    match data with
    | .int v => .uint ((v % (2 ^ 64 : Int)).toNat)
    | .int8 v => .uint8 ((v % (2 ^ 8 : Int)).toNat)
    | .int16 v => .uint16 ((v % (2 ^ 16 : Int)).toNat)
    | .int32 v =>
        if strContains (strToLower tp) "mediumint" then
          .uint32 (((v % (2 ^ 32 : Int)).toNat) % 2 ^ 24)
        else
          .uint32 ((v % (2 ^ 32 : Int)).toNat)
    | .int64 v => .str (Nat.repr ((v % (2 ^ 64 : Int)).toNat))
    | v => v

/-- Rendering switch of `columnValue` (dml.go lines 232-272), applied after
the cast: null, booleans, the integer widths, floats (pre-rendered), text,
bytes and the generic fallback. -/
def valueText : Value → String
  | .null => "null"
  | .bool b => if b then "1" else "0"
  | .int v => Int.repr v
  | .int8 v => Int.repr v
  | .int16 v => Int.repr v
  | .int32 v => Int.repr v
  | .int64 v => Int.repr v
  | .uint v => Nat.repr v
  | .uint8 v => Nat.repr v
  | .uint16 v => Nat.repr v
  | .uint32 v => Nat.repr v
  | .uint64 v => Nat.repr v
  | .float32 rendered => rendered
  | .float64 rendered => rendered
  | .str s => s
  | .bytes s => s
  | .other rendered => rendered

/-- Embedding of `columnValue(value, unsigned, tp)` from dml.go lines
229-273: cast, then render to canonical text. -/
def columnValue (value : Value) (unsigned : Bool) (tp : String) : String :=
  valueText (castUnsigned value unsigned tp)

/-- Embedding of `genColumnList` (dml.go lines 178-190): backquoted column
names joined by commas with no whitespace. -/
def genColumnList (columns : List column) : String :=
  String.intercalate "," (columns.map fun c => "`" ++ c.name ++ "`")

/-- Embedding of `genColumnPlaceholders` (dml.go lines 192-198). -/
def genColumnPlaceholders (length : Nat) : String :=
  String.intercalate "," (List.replicate length "?")

/-- Dummy column standing for the value of an out-of-range Go slice read of
a column list (which would panic in Go); only ever produced outside the
guarded, in-range uses proved below. -/
def dummyColumn : column := { idx := 0, name := "", NotNull := false, unsigned := false, tp := "" }

/-- Per-row cast loop shared by the three generators: for each position `i`
of the row, `castUnsigned(data[i], columns[i].unsigned, columns[i].tp)`.
The generators only reach this loop after checking
`len(data) == len(columns)`, under which the zip is exactly the Go loop. -/
def castRow (columns : List column) (data : List Value) : List Value :=
  (data.zip columns).map fun p => castUnsigned p.1 p.2.unsigned p.2.tp

/-- One conjunct of a WHERE clause: operator `IS` when the bound value is
null, `=` otherwise (the `kvSplit` selection of `genWhere`). -/
def wherePart (c : column) (v : Value) : String :=
  "`" ++ c.name ++ "` " ++ (if v = Value.null then "IS" else "=") ++ " ?"

/-- Embedding of `genWhere(columns, data)` (dml.go lines 379-395): for each
position, compare `data[i]` against nil to pick the operator, join the
conjuncts with AND. -/
def genWhere (columns : List column) (data : List Value) : String :=
  String.intercalate " AND "
    (columns.enum.map fun p => wherePart p.2 (data.getD p.1 Value.null))

/-- One assignment of a SET clause; `genKVs` never inspects the bound value
and always uses `=`. -/
def kvPart (c : column) : String := "`" ++ c.name ++ "` = ?"

/-- Embedding of `genKVs(columns)` (dml.go lines 397-408): assignments joined
by a comma and space, always with operator `=`. -/
def genKVs (columns : List column) : String :=
  String.intercalate ", " (columns.map kvPart)

/-- Embedding of `getSpecifiedIndexColumn(indexColumns, fn)` (dml.go lines
346-366): scan the iteration sequence, skip zero-column entries, and return
the first index none of whose columns satisfies `fn`; `[]` models the final
`return nil`. -/
def getSpecifiedIndexColumn (indexColumns : IndexCatalog) (fn : column → Bool) : List column :=
  match indexColumns with
  | [] => []
  | (_, indexCols) :: rest =>
      if indexCols.length = 0 then getSpecifiedIndexColumn rest fn
      else if indexCols.all fun col => !fn col then indexCols
      else getSpecifiedIndexColumn rest fn

/-- Embedding of `findFitIndex(indexColumns)` (dml.go lines 320-336): return
the primary index when present and non-empty; otherwise (also when the
primary entry is empty, after logging) scan for an index whose every column
is schema not-null. -/
def findFitIndex (indexColumns : IndexCatalog) : List column :=
  match lookupIndex indexColumns "primary" with
  | some cols =>
      if cols.length = 0 then getSpecifiedIndexColumn indexColumns fun c => !c.NotNull
      else cols
  | none => getSpecifiedIndexColumn indexColumns fun c => !c.NotNull

/-- Embedding of `getAvailableIndexColumn(indexColumns, data)` (dml.go lines
338-344): first index whose every column holds a non-nil value in this row.
The Go predicate reads `data[c.idx]`; the total embedding reads the position
with a null default, which coincides with the source whenever the ordinal is
in range (see the bounds theorems). -/
def getAvailableIndexColumn (indexColumns : IndexCatalog) (data : List Value) : List column :=
  getSpecifiedIndexColumn indexColumns fun c => data.getD c.idx Value.null = Value.null

/-- Embedding of `getColumnData(columns, indexColumns, data)` (dml.go lines
368-377): project the row at the ordinals of the index columns.  The
`columns` parameter is, as in the source, used only for capacity. -/
def getColumnData (columns : List column) (indexColumns : List column) (data : List Value) :
    List column × List Value :=
  (indexColumns, indexColumns.map fun c => data.getD c.idx Value.null)

/-- Embedding of `genKeyList(columns, dataSeq)` (dml.go lines 302-309):
canonical text of each value under the matching column, joined by commas. -/
def genKeyList (columns : List column) (dataSeq : List Value) : String :=
  String.intercalate ","
    (dataSeq.enum.map fun p =>
      columnValue p.2 (columns.getD p.1 dummyColumn).unsigned (columns.getD p.1 dummyColumn).tp)

/-- Embedding of `genMultipleKeys(columns, value, indexColumns)` (dml.go
lines 311-318): one identity key per entry of the index catalog, in
iteration order. -/
def genMultipleKeys (columns : List column) (value : List Value) (indexColumns : IndexCatalog) :
    List String :=
  indexColumns.map fun p =>
    let cv := getColumnData columns p.2 value
    genKeyList cv.1 cv.2

/-- WHERE-clause basis shared by `genDeleteSQL` (dml.go lines 167-170) and
the non-safe update branch (lines 119-122): the projection over the selected
index columns when any are present, all columns with the full row otherwise. -/
def whereBasis (columns : List column) (indexColumns : List column) (value : List Value) :
    List column × List Value :=
  if indexColumns.length > 0 then getColumnData columns indexColumns value
  else (columns, value)

/-- Embedding of `genDeleteSQL(schema, table, value, columns, indexColumns)`
(dml.go lines 166-176): WHERE over the selected index columns when any are
present, over all columns otherwise; returns the text and the bound values. -/
def genDeleteSQL (schema table : String) (value : List Value) (columns : List column)
    (indexColumns : List column) : String × List Value :=
  let wcwv := whereBasis columns indexColumns value
  let w := genWhere wcwv.1 wcwv.2
  ("DELETE FROM `" ++ schema ++ "`.`" ++ table ++ "` WHERE " ++ w ++ " LIMIT 1;", wcwv.2)

/-- One step of the `defaultIndexColumns` threading at dml.go lines 82-84 and
152-154: the running default is replaced by the row-available index only
while it is still empty; a non-empty default (whether the batch-level fit
index or one found at an earlier row) is kept unchanged. -/
def stepDefaultIndex (defaultIndexColumns : List column) (indexColumns : IndexCatalog)
    (values : List Value) : List column :=
  if defaultIndexColumns.length = 0 then getAvailableIndexColumn indexColumns values
  else defaultIndexColumns

/-- REPLACE INTO text shared by the insert generator and the safe-mode
update branch (dml.go lines 43 and 96). -/
def replaceSQL (schema table columnList columnPlaceholders : String) : String :=
  "REPLACE INTO `" ++ schema ++ "`.`" ++ table ++ "` (" ++ columnList ++ ") VALUES (" ++
    columnPlaceholders ++ ");"

/-- Embedding of `genInsertSQLs` (dml.go lines 27-51).  A row of the wrong
arity aborts the whole batch with the structural-mismatch error; the Go
original returns `(nil, nil, nil, err)` there, which the `Except` error case
models (no partial output). -/
def genInsertSQLs (schema table : String) (dataSeq : List (List Value)) (columns : List column)
    (indexColumns : IndexCatalog) :
    Except String (List String × List (List String) × List (List Value)) :=
  match dataSeq with
  | [] => .ok ([], [], [])
  | data :: rest =>
      if data.length ≠ columns.length then
        .error "insert columns and data mismatch in length"
      else
        let value := castRow columns data
        let sql := replaceSQL schema table (genColumnList columns)
          (genColumnPlaceholders columns.length)
        let ks := genMultipleKeys columns value indexColumns
        match genInsertSQLs schema table rest columns indexColumns with
        | .error e => .error e
        | .ok (sqls, keys, values) => .ok (sql :: sqls, ks :: keys, value :: values)

/-- Loop body of `genUpdateSQLs` (dml.go lines 61-131), processing the flat
event list two rows at a time and threading `defaultIndexColumns`, which the
source mutates in place at line 83: once a row-available index is assigned
there it stays in scope for every later pair of the batch.  A trailing
unpaired row is dropped (in Go the `data[i+1]` read would panic; panics are
outside the embedding and no claim touches odd batches). -/
def genUpdateSQLsGo (schema table columnList columnPlaceholders : String) (columns : List column)
    (indexColumns : IndexCatalog) (safeMode : Bool) :
    List (List Value) → List column →
      Except String (List String × List (List String) × List (List Value))
  | [], _ => .ok ([], [], [])
  | [_], _ => .ok ([], [], [])
  | oldData :: changedData :: rest, defaultIndexColumns =>
      if oldData.length ≠ changedData.length then
        .error "update data mismatch in length"
      else if oldData.length ≠ columns.length then
        .error "update columns and data mismatch in length"
      else
        let oldValues := castRow columns oldData
        let changedValues := castRow columns changedData
        let dic := stepDefaultIndex defaultIndexColumns indexColumns oldValues
        let ks := genMultipleKeys columns oldValues indexColumns ++
          genMultipleKeys columns changedValues indexColumns
        if safeMode then
          let dsql := genDeleteSQL schema table oldValues columns dic
          let rsql := replaceSQL schema table columnList columnPlaceholders
          match genUpdateSQLsGo schema table columnList columnPlaceholders columns indexColumns
              safeMode rest dic with
          | .error e => .error e
          | .ok (sqls, keys, values) =>
              .ok (dsql.1 :: rsql :: sqls, ks :: ks :: keys, dsql.2 :: changedValues :: values)
        else
          let updateColumns := (List.range oldValues.length).map fun j => columns.getD j dummyColumn
          let updateValues :=
            (List.range oldValues.length).map fun j => changedValues.getD j Value.null
          if updateColumns.length = 0 then
            genUpdateSQLsGo schema table columnList columnPlaceholders columns indexColumns
              safeMode rest dic
          else
            let kvs := genKVs updateColumns
            let wcwv := whereBasis columns dic oldValues
            let w := genWhere wcwv.1 wcwv.2
            let value := updateValues ++ wcwv.2
            let sql := "UPDATE `" ++ schema ++ "`.`" ++ table ++ "` SET " ++ kvs ++ " WHERE " ++
              w ++ " LIMIT 1;"
            match genUpdateSQLsGo schema table columnList columnPlaceholders columns indexColumns
                safeMode rest dic with
            | .error e => .error e
            | .ok (sqls, keys, values) => .ok (sql :: sqls, ks :: keys, value :: values)

/-- Embedding of `genUpdateSQLs` (dml.go lines 53-134): precompute the column
list, placeholders and the batch-level fit index, then run the loop. -/
def genUpdateSQLs (schema table : String) (data : List (List Value)) (columns : List column)
    (indexColumns : IndexCatalog) (safeMode : Bool) :
    Except String (List String × List (List String) × List (List Value)) :=
  genUpdateSQLsGo schema table (genColumnList columns) (genColumnPlaceholders columns.length)
    columns indexColumns safeMode data (findFitIndex indexColumns)

/-- Loop body of `genDeleteSQLs` (dml.go lines 142-161), threading the
mutable `defaultIndexColumns` exactly as the update loop does. -/
def genDeleteSQLsGo (schema table : String) (columns : List column)
    (indexColumns : IndexCatalog) :
    List (List Value) → List column →
      Except String (List String × List (List String) × List (List Value))
  | [], _ => .ok ([], [], [])
  | data :: rest, defaultIndexColumns =>
      if data.length ≠ columns.length then
        .error "delete columns and data mismatch in length"
      else
        let value := castRow columns data
        let dic := stepDefaultIndex defaultIndexColumns indexColumns value
        let ks := genMultipleKeys columns value indexColumns
        let dsql := genDeleteSQL schema table value columns dic
        match genDeleteSQLsGo schema table columns indexColumns rest dic with
        | .error e => .error e
        | .ok (sqls, keys, values) => .ok (dsql.1 :: sqls, ks :: keys, dsql.2 :: values)

/-- Embedding of `genDeleteSQLs` (dml.go lines 136-164). -/
def genDeleteSQLs (schema table : String) (dataSeq : List (List Value)) (columns : List column)
    (indexColumns : IndexCatalog) :
    Except String (List String × List (List String) × List (List Value)) :=
  genDeleteSQLsGo schema table columns indexColumns dataSeq (findFitIndex indexColumns)

/-- Pairing of the flat update event list: `genUpdateSQLs` walks the input
two rows at a time, `(data[i], data[i+1])`. -/
def updatePairs : List (List Value) → List (List Value × List Value)
  | oldData :: changedData :: rest => (oldData, changedData) :: updatePairs rest
  | _ => []

/-- Row projection of `getColumnData` with the out-of-range panic made
explicit: `none` as soon as some `data[c.idx]` read is out of range. -/
def projectRow? (data : List Value) : List column → Option (List Value)
  | [] => some []
  | c :: cs =>
      match data.get? c.idx with
      | none => none
      | some v =>
          match projectRow? data cs with
          | none => none
          | some vs => some (v :: vs)

/-- Option-valued variant of `getColumnData`, built on `projectRow?`. -/
def getColumnData? (columns : List column) (indexColumns : List column) (data : List Value) :
    Option (List column × List Value) :=
  (projectRow? data indexColumns).map fun vals => (indexColumns, vals)

/-- Option-valued scan of one index for `getAvailableIndexColumn`: walk the
columns in order, stopping at the first nil value exactly as the Go loop
breaks, with an out-of-range read surfacing as `none`.  Returns whether the
index is usable for this row. -/
def indexColsUsable? (data : List Value) : List column → Option Bool
  | [] => some true
  | c :: cs =>
      match data.get? c.idx with
      | none => none
      | some v => if v = Value.null then some false else indexColsUsable? data cs

/-- Option-valued variant of `getAvailableIndexColumn`, with the row reads
made explicit. -/
def getAvailableIndexColumn? (indexColumns : IndexCatalog) (data : List Value) :
    Option (List column) :=
  match indexColumns with
  | [] => some []
  | (_, indexCols) :: rest =>
      if indexCols.length = 0 then getAvailableIndexColumn? rest data
      else
        match indexColsUsable? data indexCols with
        | none => none
        | some true => some indexCols
        | some false => getAvailableIndexColumn? rest data

/-- Option-valued variant of `genMultipleKeys`, with the row reads made
explicit. -/
def genMultipleKeys? (columns : List column) (value : List Value) :
    IndexCatalog → Option (List String)
  | [] => some []
  | p :: rest =>
      match getColumnData? columns p.2 value with
      | none => none
      | some cv =>
          match genMultipleKeys? columns value rest with
          | none => none
          | some ks => some (genKeyList cv.1 cv.2 :: ks)

/-- Sample nullable integer column at ordinal 0, for concrete instances. -/
def colA : column := { idx := 0, name := "a", NotNull := false, unsigned := false, tp := "int" }

/-- Sample nullable integer column at ordinal 1, for concrete instances. -/
def colB : column := { idx := 1, name := "b", NotNull := false, unsigned := false, tp := "int" }

/-- Sample not-null integer column at ordinal 0, for concrete instances. -/
def colAnn : column := { idx := 0, name := "a", NotNull := true, unsigned := false, tp := "int" }

/-- Sample not-null integer column at ordinal 1, for concrete instances. -/
def colBnn : column := { idx := 1, name := "b", NotNull := true, unsigned := false, tp := "int" }

/-- Catalog with two single-column nullable indexes, for concrete instances. -/
def exCatalogAB : IndexCatalog := [("i1", [colA]), ("i2", [colB])]

/-- Catalog with two schema-fit indexes in one iteration order. -/
def exCatalogNN1 : IndexCatalog := [("i1", [colAnn]), ("i2", [colBnn])]

/-- The same catalog as `exCatalogNN1` in the other iteration order. -/
def exCatalogNN2 : IndexCatalog := [("i2", [colBnn]), ("i1", [colAnn])]

/-- Catalog declaring only a primary index, for concrete instances. -/
def exCatalogPrim : IndexCatalog := [("primary", [colAnn])]

theorem castRow_length (columns : List column) (data : List Value) :
    (castRow columns data).length = min data.length columns.length := by
  simp [castRow]

theorem range_map_getD {α : Type} (l : List α) (d : α) :
    (List.range l.length).map (fun j => l.getD j d) = l := by
  apply List.ext_get
  · simp
  · intro i h1 h2
    simp [List.getD_eq_getElem?_getD, List.getElem?_eq_getElem h2]

theorem getD_eq_get {α : Type} (l : List α) (i : Nat) (d : α) (h : i < l.length) :
    l.getD i d = l.get ⟨i, h⟩ := by
  simp [List.getD_eq_getElem?_getD, List.getElem?_eq_getElem h]

theorem getSpecifiedIndexColumn_spec (indexColumns : IndexCatalog) (fn : column → Bool) :
    getSpecifiedIndexColumn indexColumns fn = [] ∨
      (getSpecifiedIndexColumn indexColumns fn ≠ [] ∧
        (∃ name, (name, getSpecifiedIndexColumn indexColumns fn) ∈ indexColumns) ∧
        ∀ c ∈ getSpecifiedIndexColumn indexColumns fn, fn c = false) := by
  induction indexColumns with
  | nil => exact Or.inl rfl
  | cons p rest ih =>
      obtain ⟨name, cols⟩ := p
      by_cases h0 : cols.length = 0
      · rw [show getSpecifiedIndexColumn ((name, cols) :: rest) fn =
            getSpecifiedIndexColumn rest fn by simp [getSpecifiedIndexColumn, h0]]
        rcases ih with h | ⟨hne, ⟨nm, hmem⟩, hall⟩
        · exact Or.inl h
        · exact Or.inr ⟨hne, ⟨nm, List.mem_cons_of_mem _ hmem⟩, hall⟩
      · by_cases hall : cols.all (fun col => !fn col)
        · rw [show getSpecifiedIndexColumn ((name, cols) :: rest) fn = cols by
            simp [getSpecifiedIndexColumn, h0, hall]]
          refine Or.inr ⟨?_, ⟨name, List.mem_cons_self _ _⟩, ?_⟩
          · intro hc; exact h0 (by simp [hc])
          · intro c hc
            have := (List.all_eq_true.mp hall) c hc
            simpa using this
        · rw [show getSpecifiedIndexColumn ((name, cols) :: rest) fn =
              getSpecifiedIndexColumn rest fn by simp [getSpecifiedIndexColumn, h0, hall]]
          rcases ih with h | ⟨hne, ⟨nm, hmem⟩, hall2⟩
          · exact Or.inl h
          · exact Or.inr ⟨hne, ⟨nm, List.mem_cons_of_mem _ hmem⟩, hall2⟩

theorem findFitIndex_primary (indexColumns : IndexCatalog) (cols : List column)
    (hlk : lookupIndex indexColumns "primary" = some cols) (hne : cols ≠ []) :
    findFitIndex indexColumns = cols := by
  have hlen : ¬ cols.length = 0 := by simpa [List.length_eq_zero] using hne
  simp [findFitIndex, hlk, hlen]

theorem getSpecifiedIndexColumn_cons (name : String) (cols : List column)
    (rest : IndexCatalog) (fn : column → Bool) :
    getSpecifiedIndexColumn ((name, cols) :: rest) fn =
      if cols.length = 0 then getSpecifiedIndexColumn rest fn
      else if cols.all fun col => !fn col then cols
      else getSpecifiedIndexColumn rest fn := rfl

theorem projectRow?_of_bounds (cols : List column) (data : List Value)
    (h : ∀ c ∈ cols, c.idx < data.length) :
    projectRow? data cols = some (cols.map fun c => data.getD c.idx Value.null) := by
  induction cols with
  | nil => rfl
  | cons c cs ih =>
      have hc : c.idx < data.length := h c (List.mem_cons_self _ _)
      have hget : data.get? c.idx = some (data.getD c.idx Value.null) := by
        rw [List.get?_eq_get hc, getD_eq_get data c.idx Value.null hc]
      have ihr := ih fun x hx => h x (List.mem_cons_of_mem _ hx)
      rw [projectRow?, hget, ihr, List.map_cons]

theorem indexColsUsable?_of_bounds (cols : List column) (data : List Value)
    (h : ∀ c ∈ cols, c.idx < data.length) :
    indexColsUsable? data cols =
      some (cols.all fun c => !(decide (data.getD c.idx Value.null = Value.null))) := by
  induction cols with
  | nil => rfl
  | cons c cs ih =>
      have hc : c.idx < data.length := h c (List.mem_cons_self _ _)
      have hget : data.get? c.idx = some (data.getD c.idx Value.null) := by
        rw [List.get?_eq_get hc, getD_eq_get data c.idx Value.null hc]
      have ihr := ih fun x hx => h x (List.mem_cons_of_mem _ hx)
      rw [indexColsUsable?, hget, List.all_cons]
      generalize data.getD c.idx Value.null = x
      by_cases hv : x = Value.null
      · simp [hv]
      · simp [hv, ihr]

theorem getColumnData?_of_bounds (columns indexCols : List column) (data : List Value)
    (h : ∀ c ∈ indexCols, c.idx < data.length) :
    getColumnData? columns indexCols data = some (getColumnData columns indexCols data) := by
  rw [getColumnData?, projectRow?_of_bounds indexCols data h]
  rfl

theorem getAvailableIndexColumn?_of_bounds (indexColumns : IndexCatalog) (data : List Value)
    (h : ∀ p ∈ indexColumns, ∀ c ∈ p.2, c.idx < data.length) :
    getAvailableIndexColumn? indexColumns data =
      some (getAvailableIndexColumn indexColumns data) := by
  induction indexColumns with
  | nil => rfl
  | cons p rest ih =>
      obtain ⟨name, cols⟩ := p
      have hcols : ∀ c ∈ cols, c.idx < data.length := h (name, cols) (List.mem_cons_self _ _)
      have ihr := ih fun q hq => h q (List.mem_cons_of_mem _ hq)
      rw [getAvailableIndexColumn] at ihr ⊢
      rw [getSpecifiedIndexColumn_cons, getAvailableIndexColumn?,
        indexColsUsable?_of_bounds cols data hcols]
      by_cases h0 : cols.length = 0
      · rw [if_pos h0, if_pos h0, ihr]
      · rw [if_neg h0, if_neg h0]
        by_cases hu : cols.all fun c => !(decide (data.getD c.idx Value.null = Value.null))
        · rw [hu]
          rfl
        · rw [Bool.not_eq_true] at hu
          rw [hu, ihr]
          simp

theorem genMultipleKeys?_of_bounds (columns : List column) (value : List Value)
    (indexColumns : IndexCatalog)
    (h : ∀ p ∈ indexColumns, ∀ c ∈ p.2, c.idx < value.length) :
    genMultipleKeys? columns value indexColumns =
      some (genMultipleKeys columns value indexColumns) := by
  induction indexColumns with
  | nil => rfl
  | cons p rest ih =>
      have hcols : ∀ c ∈ p.2, c.idx < value.length := h p (List.mem_cons_self _ _)
      have ihr := ih fun q hq => h q (List.mem_cons_of_mem _ hq)
      rw [genMultipleKeys?, getColumnData?_of_bounds columns p.2 value hcols, ihr]
      rfl

theorem lookupIndex_mem (indexColumns : IndexCatalog) (name : String) (cols : List column)
    (h : lookupIndex indexColumns name = some cols) : (name, cols) ∈ indexColumns := by
  induction indexColumns with
  | nil => simp [lookupIndex] at h
  | cons p rest ih =>
      obtain ⟨k, cs⟩ := p
      by_cases hk : k = name
      · rw [lookupIndex, if_pos hk] at h
        obtain rfl := Option.some.inj h
        subst hk
        exact List.mem_cons_self _ _
      · rw [lookupIndex, if_neg hk] at h
        exact List.mem_cons_of_mem _ (ih h)

theorem getAvailableIndexColumn_nonnull (indexColumns : IndexCatalog) (data : List Value) :
    ∀ c ∈ getAvailableIndexColumn indexColumns data,
      data.getD c.idx Value.null ≠ Value.null := by
  intro c hc
  rcases getSpecifiedIndexColumn_spec indexColumns
      (fun c => decide (data.getD c.idx Value.null = Value.null)) with h | ⟨_, _, hall⟩
  · rw [getAvailableIndexColumn] at hc
    rw [h] at hc
    simp at hc
  · have := hall c hc
    simpa using this

/-- C2: for an unsigned column whose declared type contains "mediumint"
(case-insensitively), `castUnsigned` maps an `int32` value `v` to the
unsigned 24-bit magnitude `v mod 2^24` (the low three little-endian bytes of
the 32-bit pattern), not the 32-bit complement. -/
theorem c2_mediumint_unsigned_cast (v : Int) (tp : String)
    (h : strContains (strToLower tp) "mediumint" = true) :
    castUnsigned (Value.int32 v) true tp = Value.uint32 ((v % (2 ^ 24 : Int)).toNat) := by
  have hmod : ((v % (4294967296 : Int)).toNat) % 16777216 = (v % (16777216 : Int)).toNat := by
    omega
  simp [castUnsigned, h, hmod]

/-- C2 witness: the concrete conversion from the source comment, casting
−4692783 in an unsigned mediumint column yields 12084433 (which differs from
the naive 32-bit complement 4290274513). -/
theorem c2_witness :
    strContains (strToLower "mediumint(8) unsigned") "mediumint" = true ∧
    castUnsigned (Value.int32 (-4692783)) true "mediumint(8) unsigned" =
      Value.uint32 12084433 ∧
    (12084433 : Nat) ≠ 4290274513 := by
  refine ⟨by decide, ?_, by decide⟩
  rw [c2_mediumint_unsigned_cast (-4692783) "mediumint(8) unsigned" (by decide)]
  decide

/-- C5: `genMultipleKeys` produces exactly one identity key per declared
index of the catalog, for every row and every catalog, independently of any
fit-index selection. -/
theorem c5_one_key_per_index (columns : List column) (value : List Value)
    (indexColumns : IndexCatalog) :
    (genMultipleKeys columns value indexColumns).length = indexColumns.length := by
  simp [genMultipleKeys]

/-- C8 counterexample: two index catalogs that are equal as unordered maps
(one is a permutation of the other) on which `findFitIndex` returns
different indexes, because the scan follows the map iteration order and both
entries are schema-fit.  Go map iteration order is arbitrary, so two
invocations over equal catalogs need not agree. -/
theorem c8_counterexample :
    exCatalogNN1.Perm exCatalogNN2 ∧ findFitIndex exCatalogNN1 ≠ findFitIndex exCatalogNN2 :=
  ⟨by decide, by decide⟩

/-- C8 amended: selection is deterministic only relative to a fixed
iteration sequence; independence from the iteration order holds in the
primary-index case: any two catalogs that agree on a non-empty "primary"
binding select the same index, regardless of how the remaining entries are
ordered. -/
theorem c8_primary_order_independent (l1 l2 : IndexCatalog) (cols : List column)
    (h1 : lookupIndex l1 "primary" = some cols) (h2 : lookupIndex l2 "primary" = some cols)
    (hne : cols ≠ []) :
    findFitIndex l1 = findFitIndex l2 := by
  rw [findFitIndex_primary l1 cols h1 hne, findFitIndex_primary l2 cols h2 hne]

/-- C8 witness: two catalogs carrying the same non-empty primary binding in
different positions select the same index. -/
theorem c8_witness :
    lookupIndex exCatalogPrim "primary" = some [colAnn] ∧
    lookupIndex [("x", [colB]), ("primary", [colAnn])] "primary" = some [colAnn] ∧
    ([colAnn] : List column) ≠ [] ∧
    findFitIndex exCatalogPrim = findFitIndex [("x", [colB]), ("primary", [colAnn])] :=
  ⟨by decide, by decide, by decide,
    c8_primary_order_independent exCatalogPrim [("x", [colB]), ("primary", [colAnn])] [colAnn]
      (by decide) (by decide) (by decide)⟩

/-- C9: neither selection routine ever yields an empty column list as a
usable index: the result is either `[]` (no index found, Go nil) or a
non-empty column list bound to some declared index of the catalog; in
particular zero-column entries (including an empty "primary") are never
returned as the selected index. -/
theorem c9_selected_index_nonempty (indexColumns : IndexCatalog) (data : List Value) :
    (findFitIndex indexColumns = [] ∨
      (findFitIndex indexColumns ≠ [] ∧
        ∃ name, (name, findFitIndex indexColumns) ∈ indexColumns)) ∧
    (getAvailableIndexColumn indexColumns data = [] ∨
      (getAvailableIndexColumn indexColumns data ≠ [] ∧
        ∃ name, (name, getAvailableIndexColumn indexColumns data) ∈ indexColumns)) := by
  constructor
  · cases hlk : lookupIndex indexColumns "primary" with
    | none =>
        have hff : findFitIndex indexColumns =
            getSpecifiedIndexColumn indexColumns fun c => !c.NotNull := by
          simp [findFitIndex, hlk]
        rw [hff]
        rcases getSpecifiedIndexColumn_spec indexColumns (fun c => !c.NotNull) with
          h | ⟨hne, hmem, _⟩
        · exact Or.inl h
        · exact Or.inr ⟨hne, hmem⟩
    | some cols =>
        by_cases h0 : cols.length = 0
        · have hff : findFitIndex indexColumns =
              getSpecifiedIndexColumn indexColumns fun c => !c.NotNull := by
            simp [findFitIndex, hlk, h0]
          rw [hff]
          rcases getSpecifiedIndexColumn_spec indexColumns (fun c => !c.NotNull) with
            h | ⟨hne, hmem, _⟩
          · exact Or.inl h
          · exact Or.inr ⟨hne, hmem⟩
        · have hff : findFitIndex indexColumns = cols := by
            simp [findFitIndex, hlk, h0]
          rw [hff]
          refine Or.inr ⟨?_, "primary", lookupIndex_mem indexColumns "primary" cols hlk⟩
          intro hc
          exact h0 (by simp [hc])
  · rw [getAvailableIndexColumn]
    rcases getSpecifiedIndexColumn_spec indexColumns
        (fun c => decide (data.getD c.idx Value.null = Value.null)) with h | ⟨hne, hmem, _⟩
    · exact Or.inl h
    · exact Or.inr ⟨hne, hmem⟩

/-- C10: whenever every column referenced by the index columns in play has
an ordinal position strictly below the row length, the explicit
out-of-range branch of the row reads in `getColumnData`,
`getAvailableIndexColumn` and `genMultipleKeys` is unreachable: the
Option-valued variants succeed and agree with the total embeddings. -/
theorem c10_row_projection_in_bounds (columns idxCols : List column)
    (indexColumns : IndexCatalog) (data : List Value)
    (h1 : ∀ c ∈ idxCols, c.idx < data.length)
    (h2 : ∀ p ∈ indexColumns, ∀ c ∈ p.2, c.idx < data.length) :
    getColumnData? columns idxCols data = some (getColumnData columns idxCols data) ∧
    getAvailableIndexColumn? indexColumns data =
      some (getAvailableIndexColumn indexColumns data) ∧
    genMultipleKeys? columns data indexColumns =
      some (genMultipleKeys columns data indexColumns) :=
  ⟨getColumnData?_of_bounds columns idxCols data h1,
   getAvailableIndexColumn?_of_bounds indexColumns data h2,
   genMultipleKeys?_of_bounds columns data indexColumns h2⟩

/-- C10 witness: the bounds hypotheses hold for a concrete two-column row
and the Option-valued projections succeed there. -/
theorem c10_witness :
    getColumnData? [colA, colB] [colB] [Value.int 1, Value.int 2] =
      some (getColumnData [colA, colB] [colB] [Value.int 1, Value.int 2]) ∧
    getAvailableIndexColumn? exCatalogAB [Value.int 1, Value.int 2] =
      some (getAvailableIndexColumn exCatalogAB [Value.int 1, Value.int 2]) ∧
    genMultipleKeys? [colA, colB] [Value.int 1, Value.int 2] exCatalogAB =
      some (genMultipleKeys [colA, colB] [Value.int 1, Value.int 2] exCatalogAB) :=
  c10_row_projection_in_bounds [colA, colB] [colB] exCatalogAB [Value.int 1, Value.int 2]
    (by decide) (by decide)

/-- C1: a safe-mode update pair yields exactly two statement triples, in
order a DELETE whose WHERE clause is built from the before-state casted
values over the selected index columns (all columns when none is selected),
then a REPLACE INTO listing every column bound to the after-state casted
values; both triples carry the same identity-key list, the concatenation of
the before-state and after-state keys over all declared indexes. -/
theorem c1_safe_mode_update_pair (schema table : String) (oldData changedData : List Value)
    (columns : List column) (indexColumns : IndexCatalog)
    (h1 : oldData.length = columns.length) (h2 : changedData.length = columns.length) :
    genUpdateSQLs schema table [oldData, changedData] columns indexColumns true =
      .ok
        (["DELETE FROM `" ++ schema ++ "`.`" ++ table ++ "` WHERE " ++
            genWhere
              (whereBasis columns
                (stepDefaultIndex (findFitIndex indexColumns) indexColumns
                  (castRow columns oldData)) (castRow columns oldData)).1
              (whereBasis columns
                (stepDefaultIndex (findFitIndex indexColumns) indexColumns
                  (castRow columns oldData)) (castRow columns oldData)).2 ++ " LIMIT 1;",
          replaceSQL schema table (genColumnList columns) (genColumnPlaceholders columns.length)],
         [genMultipleKeys columns (castRow columns oldData) indexColumns ++
            genMultipleKeys columns (castRow columns changedData) indexColumns,
          genMultipleKeys columns (castRow columns oldData) indexColumns ++
            genMultipleKeys columns (castRow columns changedData) indexColumns],
         [(whereBasis columns
             (stepDefaultIndex (findFitIndex indexColumns) indexColumns
               (castRow columns oldData)) (castRow columns oldData)).2,
          castRow columns changedData]) := by
  have hne : ¬ oldData.length ≠ changedData.length := by simp [h1, h2]
  have hnc : ¬ oldData.length ≠ columns.length := by simp [h1]
  simp only [genUpdateSQLs, genUpdateSQLsGo, if_neg hne, if_neg hnc, if_true, genDeleteSQL]

/-- C1 witness: the safe-mode decomposition at a concrete one-column pair
with a primary index, fully evaluated. -/
theorem c1_witness :
    genUpdateSQLs "db" "t" [[Value.int 5], [Value.int 6]] [colAnn] exCatalogPrim true =
      .ok
        (["DELETE FROM `db`.`t` WHERE `a` = ? LIMIT 1;",
          "REPLACE INTO `db`.`t` (`a`) VALUES (?);"],
         [["5", "6"], ["5", "6"]],
         [[Value.int 5], [Value.int 6]]) := by
  rw [c1_safe_mode_update_pair "db" "t" [Value.int 5] [Value.int 6] [colAnn] exCatalogPrim
    (by decide) (by decide)]
  rfl

/-- C3: in non-safe mode an update pair over a non-empty column catalog
emits exactly one UPDATE whose SET clause lists every column of the catalog
bound to the after-state casted values; the `updateColumns` list built at
dml.go lines 103-108 is always the whole catalog, so the empty-SET skip at
lines 110-113 cannot trigger when the column count is positive. -/
theorem c3_nonsafe_update_full_set (schema table : String) (oldData changedData : List Value)
    (columns : List column) (indexColumns : IndexCatalog)
    (h1 : oldData.length = columns.length) (h2 : changedData.length = columns.length)
    (h3 : 0 < columns.length) :
    genUpdateSQLs schema table [oldData, changedData] columns indexColumns false =
      .ok
        (["UPDATE `" ++ schema ++ "`.`" ++ table ++ "` SET " ++ genKVs columns ++ " WHERE " ++
            genWhere
              (whereBasis columns
                (stepDefaultIndex (findFitIndex indexColumns) indexColumns
                  (castRow columns oldData)) (castRow columns oldData)).1
              (whereBasis columns
                (stepDefaultIndex (findFitIndex indexColumns) indexColumns
                  (castRow columns oldData)) (castRow columns oldData)).2 ++ " LIMIT 1;"],
         [genMultipleKeys columns (castRow columns oldData) indexColumns ++
            genMultipleKeys columns (castRow columns changedData) indexColumns],
         [castRow columns changedData ++
            (whereBasis columns
              (stepDefaultIndex (findFitIndex indexColumns) indexColumns
                (castRow columns oldData)) (castRow columns oldData)).2]) := by
  have hne : ¬ oldData.length ≠ changedData.length := by simp [h1, h2]
  have hnc : ¬ oldData.length ≠ columns.length := by simp [h1]
  have hol : (castRow columns oldData).length = columns.length := by
    simp [castRow_length, h1]
  have hcl : (castRow columns changedData).length = columns.length := by
    simp [castRow_length, h2]
  have huc : (List.range (castRow columns oldData).length).map
      (fun j => columns.getD j dummyColumn) = columns := by
    rw [hol]
    exact range_map_getD columns dummyColumn
  have huv : (List.range (castRow columns oldData).length).map
      (fun j => (castRow columns changedData).getD j Value.null) = castRow columns changedData := by
    rw [hol, ← hcl]
    exact range_map_getD (castRow columns changedData) Value.null
  have hskip : ¬ ((List.range (castRow columns oldData).length).map
      (fun j => columns.getD j dummyColumn)).length = 0 := by
    rw [huc]
    omega
  simp only [genUpdateSQLs, genUpdateSQLsGo, if_neg hne, if_neg hnc, Bool.false_eq_true,
    if_false, huc, huv, if_neg hskip]
  rw [if_neg (show ¬ columns.length = 0 by omega)]

/-- C3 witness: the non-safe update at a concrete one-column pair with a
primary index: one UPDATE statement, SET over the full catalog bound to the
after-state value. -/
theorem c3_witness :
    genUpdateSQLs "db" "t" [[Value.int 5], [Value.int 6]] [colAnn] exCatalogPrim false =
      .ok
        (["UPDATE `db`.`t` SET `a` = ? WHERE `a` = ? LIMIT 1;"],
         [["5", "6"]],
         [[Value.int 6, Value.int 5]]) := by
  rw [c3_nonsafe_update_full_set "db" "t" [Value.int 5] [Value.int 6] [colAnn] exCatalogPrim
    (by decide) (by decide) (by decide)]
  rfl

/-- C4 counterexample: the per-row fallback is not per-row.  With no
schema-fit index, the first delete row selects index i1 (column a, non-null
there) and line 152-154 of dml.go keeps that selection for the second row,
whose column a is null, even though index i2 (column b) holds a non-null
value in that row: the second WHERE clause is built over column a with a
null bound value instead of the row-available index i2. -/
theorem c4_counterexample :
    genDeleteSQLs "s" "t" [[Value.int 5, Value.int 6], [Value.null, Value.int 7]] [colA, colB]
        exCatalogAB =
      .ok
        (["DELETE FROM `s`.`t` WHERE `a` = ? LIMIT 1;",
          "DELETE FROM `s`.`t` WHERE `a` IS ? LIMIT 1;"],
         [["5", "6"], ["null", "7"]],
         [[Value.int 5], [Value.null]]) ∧
    getAvailableIndexColumn exCatalogAB (castRow [colA, colB] [Value.null, Value.int 7]) =
      [colB] :=
  ⟨rfl, rfl⟩

/-- C4 amended: when the batch-level schema-fit search yields nothing, the
row-available fallback is computed only at rows reached while the running
default is still empty — in particular at the first row of the batch — and
any index it selects holds a non-null actual value in every column for the
row it was computed from; that selection is then reused for all later rows
of the batch without re-checking. -/
theorem c4_first_row_available_fallback (schema table : String) (columns : List column)
    (indexColumns : IndexCatalog) (data : List Value)
    (hfit : findFitIndex indexColumns = [])
    (hlen : data.length = columns.length) :
    (∀ c ∈ getAvailableIndexColumn indexColumns (castRow columns data),
        (castRow columns data).getD c.idx Value.null ≠ Value.null) ∧
    genDeleteSQLs schema table [data] columns indexColumns =
      .ok
        ([(genDeleteSQL schema table (castRow columns data) columns
            (getAvailableIndexColumn indexColumns (castRow columns data))).1],
         [genMultipleKeys columns (castRow columns data) indexColumns],
         [(genDeleteSQL schema table (castRow columns data) columns
            (getAvailableIndexColumn indexColumns (castRow columns data))).2]) := by
  constructor
  · exact getAvailableIndexColumn_nonnull indexColumns (castRow columns data)
  · have hnc : ¬ data.length ≠ columns.length := by simp [hlen]
    simp only [genDeleteSQLs, genDeleteSQLsGo, if_neg hnc, hfit, stepDefaultIndex,
      List.length_nil]
    simp

/-- C4 witness: at a concrete single-row batch with no schema-fit index, the
row-available index is selected for that row and its column holds a
non-null value there. -/
theorem c4_witness :
    (∀ c ∈ getAvailableIndexColumn exCatalogAB
        (castRow [colA, colB] [Value.null, Value.int 7]),
        (castRow [colA, colB] [Value.null, Value.int 7]).getD c.idx Value.null ≠ Value.null) ∧
    genDeleteSQLs "s" "t" [[Value.null, Value.int 7]] [colA, colB] exCatalogAB =
      .ok
        ([(genDeleteSQL "s" "t" (castRow [colA, colB] [Value.null, Value.int 7]) [colA, colB]
            (getAvailableIndexColumn exCatalogAB
              (castRow [colA, colB] [Value.null, Value.int 7]))).1],
         [genMultipleKeys [colA, colB] (castRow [colA, colB] [Value.null, Value.int 7])
            exCatalogAB],
         [(genDeleteSQL "s" "t" (castRow [colA, colB] [Value.null, Value.int 7]) [colA, colB]
            (getAvailableIndexColumn exCatalogAB
              (castRow [colA, colB] [Value.null, Value.int 7]))).2]) :=
  c4_first_row_available_fallback "s" "t" [colA, colB] exCatalogAB [Value.null, Value.int 7]
    (by decide) (by decide)

theorem genInsertSQLs_error (schema table : String) (columns : List column)
    (indexColumns : IndexCatalog) :
    ∀ dataSeq : List (List Value), (∃ d ∈ dataSeq, d.length ≠ columns.length) →
      ∃ e, genInsertSQLs schema table dataSeq columns indexColumns = .error e := by
  intro dataSeq
  induction dataSeq with
  | nil =>
      rintro ⟨d, hd, _⟩
      simp at hd
  | cons a rest ih =>
      rintro ⟨d, hd, hlen⟩
      by_cases ha : a.length ≠ columns.length
      · exact ⟨_, by rw [genInsertSQLs, if_pos ha]⟩
      · rcases List.mem_cons.mp hd with rfl | hdr
        · exact absurd hlen ha
        · obtain ⟨e, he⟩ := ih ⟨d, hdr, hlen⟩
          refine ⟨e, ?_⟩
          rw [genInsertSQLs, if_neg ha, he]

theorem genDeleteSQLsGo_error (schema table : String) (columns : List column)
    (indexColumns : IndexCatalog) :
    ∀ dataSeq : List (List Value), (∃ d ∈ dataSeq, d.length ≠ columns.length) →
      ∀ dic, ∃ e, genDeleteSQLsGo schema table columns indexColumns dataSeq dic = .error e := by
  intro dataSeq
  induction dataSeq with
  | nil =>
      rintro ⟨d, hd, _⟩
      simp at hd
  | cons a rest ih =>
      rintro ⟨d, hd, hlen⟩ dic
      by_cases ha : a.length ≠ columns.length
      · exact ⟨_, by rw [genDeleteSQLsGo, if_pos ha]⟩
      · rcases List.mem_cons.mp hd with rfl | hdr
        · exact absurd hlen ha
        · obtain ⟨e, he⟩ := ih ⟨d, hdr, hlen⟩
            (stepDefaultIndex dic indexColumns (castRow columns a))
          refine ⟨e, ?_⟩
          simp only [genDeleteSQLsGo, if_neg ha, he]

theorem genUpdateSQLsGo_error_step (schema table columnList columnPlaceholders : String)
    (columns : List column) (indexColumns : IndexCatalog) (safeMode : Bool)
    (oldData changedData : List Value) (rest : List (List Value)) (dic : List column)
    (h1 : ¬ oldData.length ≠ changedData.length) (h2 : ¬ oldData.length ≠ columns.length)
    (he : ∃ e, genUpdateSQLsGo schema table columnList columnPlaceholders columns indexColumns
        safeMode rest
        (stepDefaultIndex dic indexColumns (castRow columns oldData)) = .error e) :
    ∃ e, genUpdateSQLsGo schema table columnList columnPlaceholders columns indexColumns
      safeMode (oldData :: changedData :: rest) dic = .error e := by
  obtain ⟨e, he⟩ := he
  refine ⟨e, ?_⟩
  cases safeMode with
  | true => simp [genUpdateSQLsGo, if_neg h1, if_neg h2, he]
  | false => simp [genUpdateSQLsGo, if_neg h1, if_neg h2, he, ite_self]

theorem genUpdateSQLsGo_error (schema table columnList columnPlaceholders : String)
    (columns : List column) (indexColumns : IndexCatalog) (safeMode : Bool) :
    ∀ dataSeq : List (List Value),
      (∃ p ∈ updatePairs dataSeq, p.1.length ≠ p.2.length ∨ p.1.length ≠ columns.length) →
      ∀ dic, ∃ e, genUpdateSQLsGo schema table columnList columnPlaceholders columns
        indexColumns safeMode dataSeq dic = .error e := by
  have main : ∀ n (dataSeq : List (List Value)), dataSeq.length ≤ n →
      (∃ p ∈ updatePairs dataSeq, p.1.length ≠ p.2.length ∨ p.1.length ≠ columns.length) →
      ∀ dic, ∃ e, genUpdateSQLsGo schema table columnList columnPlaceholders columns
        indexColumns safeMode dataSeq dic = .error e := by
    intro n
    induction n with
    | zero =>
        intro dataSeq hl hex dic
        have : dataSeq = [] := List.length_eq_zero.mp (Nat.le_zero.mp hl)
        subst this
        simp [updatePairs] at hex
    | succ n ih =>
        intro dataSeq hl hex dic
        rcases dataSeq with _ | ⟨oldData, rest1⟩
        · simp [updatePairs] at hex
        · rcases rest1 with _ | ⟨changedData, rest⟩
          · simp [updatePairs] at hex
          · rw [updatePairs] at hex
            by_cases hb1 : oldData.length ≠ changedData.length
            · exact ⟨_, by rw [genUpdateSQLsGo, if_pos hb1]⟩
            · by_cases hb2 : oldData.length ≠ columns.length
              · exact ⟨_, by rw [genUpdateSQLsGo, if_neg hb1, if_pos hb2]⟩
              · rcases hex with ⟨p, hp, hbad⟩
                rcases List.mem_cons.mp hp with rfl | hpr
                · rcases hbad with hb | hb
                  · exact absurd hb hb1
                  · exact absurd hb hb2
                · have hrest : rest.length ≤ n := by
                    simp only [List.length_cons] at hl
                    omega
                  exact genUpdateSQLsGo_error_step schema table columnList columnPlaceholders
                    columns indexColumns safeMode oldData changedData rest dic hb1 hb2
                    (ih rest hrest ⟨p, hpr, hbad⟩ _)
  intro dataSeq hex dic
  exact main dataSeq.length dataSeq (Nat.le_refl _) hex dic

/-- C6: each batch generator aborts on a structural mismatch with an error
and no outputs: a row whose length disagrees with the column count (insert,
delete) or an update pair whose before and after lengths disagree or
disagree with the column count makes the whole call return the error case,
which carries no statement, key or value sequences (the Go originals return
nil, nil, nil, err), regardless of any well-formed earlier rows. -/
theorem c6_structural_mismatch_aborts (schema table : String) (columns : List column)
    (indexColumns : IndexCatalog) (insData updData delData : List (List Value))
    (safeMode : Bool) :
    ((∃ d ∈ insData, d.length ≠ columns.length) →
      ∃ e, genInsertSQLs schema table insData columns indexColumns = .error e) ∧
    ((∃ p ∈ updatePairs updData, p.1.length ≠ p.2.length ∨ p.1.length ≠ columns.length) →
      ∃ e, genUpdateSQLs schema table updData columns indexColumns safeMode = .error e) ∧
    ((∃ d ∈ delData, d.length ≠ columns.length) →
      ∃ e, genDeleteSQLs schema table delData columns indexColumns = .error e) :=
  ⟨genInsertSQLs_error schema table columns indexColumns insData,
   fun hex => genUpdateSQLsGo_error schema table (genColumnList columns)
     (genColumnPlaceholders columns.length) columns indexColumns safeMode updData hex
     (findFitIndex indexColumns),
   fun hex => genDeleteSQLsGo_error schema table columns indexColumns delData hex
     (findFitIndex indexColumns)⟩

/-- C6 witness: concrete mismatching batches make all three generators
return the error case. -/
theorem c6_witness :
    (∃ e, genInsertSQLs "s" "t" [[Value.int 1]] [] [] = .error e) ∧
    (∃ e, genUpdateSQLs "s" "t" [[Value.int 1], []] [] [] true = .error e) ∧
    (∃ e, genDeleteSQLs "s" "t" [[Value.int 1]] [] [] = .error e) := by
  obtain ⟨hi, hu, hd⟩ := c6_structural_mismatch_aborts "s" "t" [] [] [[Value.int 1]]
    [[Value.int 1], []] [[Value.int 1]] true
  exact ⟨hi (by decide), hu (by decide), hd (by decide)⟩

/-- C7 counterexample: SET clauses do not use IS for null bound values.  In
this non-safe update the after-state value bound to the single SET column is
null, yet the emitted statement reads SET with operator = and contains no IS
anywhere: `genKVs` never inspects the bound values. -/
theorem c7_counterexample :
    genUpdateSQLs "s" "t" [[Value.int 1], [Value.null]] [colA] [] false =
      .ok
        (["UPDATE `s`.`t` SET `a` = ? WHERE `a` = ? LIMIT 1;"],
         [[]],
         [[Value.null, Value.int 1]]) ∧
    strContains "UPDATE `s`.`t` SET `a` = ? WHERE `a` = ? LIMIT 1;" "IS" = false ∧
    kvPart colA = "`a` = ?" :=
  ⟨rfl, by decide, rfl⟩

/-- C7 amended: only WHERE clause construction is NULL-aware.  `genWhere`
joins one conjunct per column whose operator is IS exactly when the bound
value at that position is null and = otherwise, while `genKVs` builds every
SET assignment with operator =, regardless of the bound values. -/
theorem c7_where_null_is_set_always_eq (columns : List column) (data : List Value)
    (c : column) (v : Value) :
    genWhere columns data = String.intercalate " AND "
      (columns.enum.map fun p => wherePart p.2 (data.getD p.1 Value.null)) ∧
    genKVs columns = String.intercalate ", " (columns.map kvPart) ∧
    (wherePart c v = "`" ++ c.name ++ "` IS ?" ↔ v = Value.null) ∧
    kvPart c = "`" ++ c.name ++ "` = ?" := by
  refine ⟨rfl, rfl, ?_, rfl⟩
  constructor
  · intro h
    by_contra hv
    rw [wherePart, if_neg hv] at h
    have hd := congrArg String.data h
    simp [String.data_append] at hd
  · intro hv
    rw [wherePart, if_pos hv]
    apply String.ext
    simp [String.data_append]
